import Mathlib

/-!
Shallow embedding of the brokerage session and order-execution core of the
POA order router: the `KoreaInvestment` client (`exchange/stock/kis.py`)
and the improved persistence layer (`exchange/database_improved.py`).

Machine-level conventions of the embedding:
* Python floats are modelled as exact rationals (`ℚ`); the 2-decimal
  formatting `float("{:.2f}".format(price))` is modelled as rounding the
  exact rational to 2 decimal places.
* Timestamps (`datetime`) are modelled as integer epoch seconds; the
  `strptime` parser is an explicit parameter `parseExpiry` whose `none`
  result models a `ValueError`/`TypeError` parse failure.
* Network effects are modelled by passing the outcome of each upstream
  call as explicit data (`PostOutcome`, `ProbeOutcome`, the quote value).
* The SQLite `auth` table is modelled as a list of rows.
-/

namespace POA

/-- ASCII lower-casing of one character, the model of Python `str.lower`
(all marker strings compared by the source are ASCII). -/
def lowerChar (c : Char) : Char :=
  if 65 ≤ c.toNat ∧ c.toNat ≤ 90 then Char.ofNat (c.toNat + 32) else c

/-- Python `str.lower` on a whole string. -/
def strToLower (s : String) : String := String.mk (s.data.map lowerChar)

/-- Whether `pat` is a prefix of `s` (character lists). -/
def beginsWithList : List Char → List Char → Bool
| _, [] => true
| [], _ :: _ => false
| a :: s, b :: t => decide (a = b) && beginsWithList s t

/-- Whether `pat` occurs contiguously inside `s` (character lists). -/
def occursInList : List Char → List Char → Bool
| [], pat => pat.isEmpty
| a :: rest, pat => beginsWithList (a :: rest) pat || occursInList rest pat

/-- Python substring test `sub in s`. -/
def containsSub (s sub : String) : Bool :=
  occursInList s.data sub.data

/-- Transient-error markers of `create_order` (kis.py line 368). -/
def transientMarkers : List String := ["internal error", "overloaded", "server error"]

/-- Terminal-error markers of `create_order` (kis.py lines 376-377); the
last entry is the Korean word for password, part of the source list. -/
def terminalMarkers : List String := ["invalid", "unauthorized", "forbidden", "not found", "비밀번호"]

/-- Python `any(keyword in error_msg.lower() for keyword in transient markers)`. -/
def isTransientMsg (msg : String) : Bool :=
  transientMarkers.any (fun k => containsSub (strToLower msg) k)

/-- Python `any(keyword in error_msg.lower() for keyword in terminal markers)`. -/
def isTerminalMsg (msg : String) : Bool :=
  terminalMarkers.any (fun k => containsSub (strToLower msg) k)

/-- Order side, the `side : Literal["buy", "sell"]` argument of `create_order`. -/
inductive Side
| buy
| sell
deriving DecidableEq

/-- The `exchange : Literal["KRX", "NASDAQ", "NYSE", "AMEX"]` argument of
`create_order` (kis.py line 238). -/
inductive StockExchange
| KRX
| NASDAQ
| NYSE
| AMEX
deriving DecidableEq

/-- The `order_type : Literal["limit", "market"]` argument of `create_order`. -/
inductive OrderType
| limit
| market
deriving DecidableEq

/-- The `UsaOrderType` enum member used at kis.py lines 320 and 329; the
schemas module itself is not part of the analysed sources, and only the
`limit` member is referenced by `create_order`. -/
inductive UsaOrderType
| limit
deriving DecidableEq

/-- Rounding an exact rational to 2 decimal places, the model of
`float("{:.2f}".format(price))` at kis.py line 302. -/
def round2 (q : ℚ) : ℚ := ((round (q * 100) : ℤ) : ℚ) / 100

/-- The synthetic overseas limit price computed inside `create_order`
(kis.py lines 294-302): offset the fetched quote by `mintick * 50` toward
the favorable side, clamp below at 1.0, then round to 2 decimals. -/
def syntheticPrice (side : Side) (current_price mintick : ℚ) : ℚ :=
  let price := if side = Side.buy then current_price + mintick * 50
               else current_price - mintick * 50
  let clamped := if price < 1 then 1 else price
  round2 clamped

/-- The overseas order body assembled at kis.py lines 316-333 (fields of
`UsaOrderBody` as they appear at the call site). -/
structure UsaOrderBody where
  PDNO : String
  ORD_DVSN : UsaOrderType
  ORD_QTY : String
  OVRS_ORD_UNPR : ℚ
  OVRS_EXCG_CD : StockExchange
deriving DecidableEq

/-- The order body variants `create_order` assembles (kis.py lines 282-333). -/
inductive OrderBody
| koreaMarket (PDNO ORD_QTY : String)
| koreaLimit (PDNO ORD_QTY ORD_UNPR : String)
| usa (b : UsaOrderBody)
deriving DecidableEq

/-- Message of the Python `TypeError` raised by `current_price + mintick * 50`
when `fetch_current_price` returned `None` (quotation marks of the original
message elided; no retry marker matches either way). -/
def typeErrorNoneMsg : String := "unsupported operand type(s) for +: NoneType and float"

/-- The per-attempt body construction of `create_order` (kis.py lines
257-333). `quote` is the value `fetch_current_price` returns for the
overseas branch; `none` models the Python `None` whose offset arithmetic
raises a `TypeError`, delivered to the surrounding generic `except` branch.
The overseas branch computes the synthetic price once and then builds the
same `UsaOrderBody` for both the market and the limit kind. -/
def buildOrderBody (exchange : StockExchange) (ticker : String) (order_type : OrderType)
    (side : Side) (amount : ℕ) (price : ℤ) (mintick : ℚ) (quote : Option ℚ) :
    Except String OrderBody :=
  if exchange = StockExchange.KRX then
    match order_type with
    | OrderType.market => Except.ok (OrderBody.koreaMarket ticker (toString amount))
    | OrderType.limit =>
        Except.ok (OrderBody.koreaLimit ticker (toString amount) (toString price))
  else
    match quote with
    | none => Except.error typeErrorNoneMsg
    | some current_price =>
      let newPrice := syntheticPrice side current_price mintick
      match order_type with
      | OrderType.market =>
          Except.ok (OrderBody.usa
            (UsaOrderBody.mk ticker UsaOrderType.limit (toString amount) newPrice exchange))
      | OrderType.limit =>
          Except.ok (OrderBody.usa
            (UsaOrderBody.mk ticker UsaOrderType.limit (toString amount) newPrice exchange))

/-- Outcome of one upstream submission attempt (`self.post` at kis.py line
335): success (`rt_cd == "0"`), a network timeout, an `HTTPStatusError`
with a status code, or a raised failure whose message text is inspected by
the generic handler. -/
inductive PostOutcome
| success (result : String)
| timeout
| httpFailed (status : ℕ)
| failure (msg : String)
deriving DecidableEq

/-- The exceptions `create_order` can raise out of its retry loop. -/
inductive OrderError
| timeoutExhausted
| httpFailed (status : ℕ)
| upstream (msg : String)
| retriesExceeded
deriving DecidableEq

/-- Observable result of a `create_order` run: the returned value or raised
error, the number of upstream attempts performed, and the list of backoff
sleeps (in seconds) executed between attempts. -/
structure RunResult where
  outcome : Except OrderError String
  attempts : ℕ
  sleeps : List ℕ

/-- `max_retries = 5` (kis.py line 247). -/
def maxRetries : ℕ := 5

/-- The backoff delay `base_delay * (2 ** attempt)` with `base_delay = 1`
(kis.py lines 248, 349). -/
def attemptDelay (attempt : ℕ) : ℕ := 1 * 2 ^ attempt

/-- The retry loop of `create_order` (kis.py lines 253-385), one branch per
handler: timeout retries with backoff, HTTP 429 retries with backoff, a
failure message matching a transient marker retries with backoff, a message
matching a terminal marker raises at once, any other failure retries
without sleeping and raises on the final attempt. `fuel` is the number of
loop iterations remaining (`maxRetries - attempt`). -/
def runAttempts (outcomes : ℕ → PostOutcome) : ℕ → ℕ → List ℕ → RunResult
| attempt, 0, sleeps =>
    RunResult.mk (Except.error OrderError.retriesExceeded) attempt sleeps
| attempt, fuel + 1, sleeps =>
  match outcomes attempt with
  | PostOutcome.success r => RunResult.mk (Except.ok r) (attempt + 1) sleeps
  | PostOutcome.timeout =>
      if attempt < maxRetries - 1 then
        runAttempts outcomes (attempt + 1) fuel (sleeps ++ [attemptDelay attempt])
      else
        RunResult.mk (Except.error OrderError.timeoutExhausted) (attempt + 1) sleeps
  | PostOutcome.httpFailed status =>
      if status = 429 ∧ attempt < maxRetries - 1 then
        runAttempts outcomes (attempt + 1) fuel (sleeps ++ [attemptDelay attempt])
      else
        RunResult.mk (Except.error (OrderError.httpFailed status)) (attempt + 1) sleeps
  | PostOutcome.failure msg =>
      if isTransientMsg msg ∧ attempt < maxRetries - 1 then
        runAttempts outcomes (attempt + 1) fuel (sleeps ++ [attemptDelay attempt])
      else if isTerminalMsg msg then
        RunResult.mk (Except.error (OrderError.upstream msg)) (attempt + 1) sleeps
      else if attempt = maxRetries - 1 then
        RunResult.mk (Except.error (OrderError.upstream msg)) (attempt + 1) sleeps
      else
        runAttempts outcomes (attempt + 1) fuel sleeps

/-- `create_order` (kis.py lines 236-385): on each attempt the body is
rebuilt; a body-construction error (the `TypeError` of an absent quote) is
caught by the same generic `except` branch as an upstream failure, while a
successfully built body is submitted with the attempt's upstream outcome
given by `post`. -/
def createOrder (exchange : StockExchange) (ticker : String) (order_type : OrderType)
    (side : Side) (amount : ℕ) (price : ℤ) (mintick : ℚ) (quote : Option ℚ)
    (post : ℕ → PostOutcome) : RunResult :=
  runAttempts
    (fun attempt =>
      match buildOrderBody exchange ticker order_type side amount price mintick quote with
      | Except.error msg => PostOutcome.failure msg
      | Except.ok _ => post attempt)
    0 maxRetries []

/-- Outcome of the liveness probe call of `check_auth` (kis.py lines
104-139): a 200 response whose `msg_cd` is not the expired code, a non-200
status, the upstream token-expired code `EGW00123`, a timeout, an
`HTTPStatusError`, or any other exception. -/
inductive ProbeOutcome
| ok
| non200 (status : ℕ)
| expiredCode
| timeout
| httpStatusError
| otherError
deriving DecidableEq

/-- `check_auth` (kis.py lines 90-163). `auth` is the stored
(access_token, expiry-string) pair from the database (`none` when no row
exists); `probe` is the liveness-call outcome, consulted only when
`is_auth` is still false; `parseExpiry` models `datetime.strptime`
(`none` = parse failure, otherwise the expiry as epoch seconds); `now` is
the current time in epoch seconds. Returns true only when the remaining
validity is at least 3600 seconds. -/
def check_auth (auth : Option (String × String)) (is_auth : Bool)
    (probe : ProbeOutcome) (parseExpiry : String → Option ℤ) (now : ℤ) : Bool :=
  match auth with
  | none => false
  | some (access_token, expiredStr) =>
    if access_token = "nothing" then false
    else if is_auth = false ∧ probe ≠ ProbeOutcome.ok then false
    else
      match parseExpiry expiredStr with
      | none => false
      | some t => decide (3600 ≤ t - now)

/-- The `BaseHeaders` record assembled by `auth` (kis.py lines 228-233). -/
structure BaseHeaders where
  authorization : String
  appkey : String
  appsecret : String
  custtype : String
deriving DecidableEq

/-- Header construction of `auth` (kis.py lines 228-233). -/
def mkBaseHeaders (access_token key secret : String) : BaseHeaders :=
  BaseHeaders.mk ("Bearer " ++ access_token) key secret "P"

/-- Observable result of one `auth` run: the headers installed on the
client, the `is_auth` flag after the call, and the database row for this
slot after the call. -/
structure AuthResult where
  headers : BaseHeaders
  is_auth : Bool
  stored : Option (String × String)
deriving DecidableEq

/-- `auth` (kis.py lines 219-234): when `check_auth` fails, refresh via
`create_auth` (its successful result is the `fresh` pair) and persist it
with `set_auth`, leaving `is_auth` as it was; when `check_auth` succeeds,
set `is_auth := true` and keep the stored pair. Either way build headers
from the pair held in the local `auth` variable afterwards. -/
def authFlow (stored : Option (String × String)) (is_auth : Bool)
    (probe : ProbeOutcome) (parseExpiry : String → Option ℤ) (now : ℤ)
    (key secret : String) (fresh : String × String) : AuthResult :=
  if check_auth stored is_auth probe parseExpiry now then
    AuthResult.mk (mkBaseHeaders (stored.getD ("", "")).1 key secret) true stored
  else
    AuthResult.mk (mkBaseHeaders fresh.1 key secret) is_auth (some fresh)

/-- One row of the `auth` table (database_improved.py lines 126-133);
`exchange` is the slot identifier and primary key, timestamps are epoch
seconds. -/
structure AuthRow where
  exchange : String
  access_token : String
  access_token_token_expired : String
  created_at : ℤ
  updated_at : ℤ
deriving DecidableEq

/-- The WHERE clause of `cleanup_old_auth` (database_improved.py lines
248-252): sentinel token and updated more than `days` days (86400 seconds
each) before `now`. -/
def staleCond (now days : ℤ) (r : AuthRow) : Bool :=
  decide (r.access_token = "nothing") && decide (r.updated_at < now - days * 86400)

/-- `cleanup_old_auth` (database_improved.py lines 246-259): the DELETE
statement removes the stale sentinel rows; the function returns the
deleted-row count (`cursor.rowcount`). Result: (table after the delete,
returned count). -/
def cleanup_old_auth (table : List AuthRow) (days now : ℤ) : List AuthRow × ℕ :=
  (table.filter (fun r => !(staleCond now days r)),
   (table.filter (fun r => staleCond now days r)).length)

/-- `set_auth` (database_improved.py lines 205-215): a single INSERT ... ON
CONFLICT(exchange) DO UPDATE statement. On conflict the row keeps its key
and `created_at` and takes the new token, expiry and `updated_at =
CURRENT_TIMESTAMP`; otherwise a fresh row is inserted with both timestamps
defaulted to the current time. -/
def set_auth (table : List AuthRow) (ex tok exp : String) (now : ℤ) : List AuthRow :=
  if table.any (fun r => decide (r.exchange = ex)) then
    table.map (fun r =>
      if r.exchange = ex then AuthRow.mk r.exchange tok exp r.created_at now else r)
  else
    table ++ [AuthRow.mk ex tok exp now now]

/-- `get_auth` (database_improved.py lines 217-224): SELECT the token and
expiry of the row keyed by `ex`, `none` when no row matches. -/
def get_auth (table : List AuthRow) (ex : String) : Option (String × String) :=
  (table.find? (fun r => decide (r.exchange = ex))).map
    (fun r => (r.access_token, r.access_token_token_expired))

/-- A sequence of `set_auth` calls applied in order; each write is
(slot-id, token, expiry, timestamp). -/
def set_auth_seq (table : List AuthRow) (writes : List (String × String × String × ℤ)) :
    List AuthRow :=
  writes.foldl (fun t w => set_auth t w.1 w.2.1 w.2.2.1 w.2.2.2) table

/-- The `auth` table holds pairwise distinct slot identifiers. -/
def UniqueKeys (table : List AuthRow) : Prop :=
  table.Pairwise (fun a b => a.exchange ≠ b.exchange)

/-- Result of `fetch_current_price` (kis.py lines 435-444): a parsed price,
the Python `None` return (the `except KeyError` path), or an uncaught
exception escaping the function. -/
inductive FetchPriceResult
| price (p : ℚ)
| absent
| raised (msg : String)
deriving DecidableEq

/-- The quote field read per market: `"stck_prpr"` for KRX, `"last"` for
the overseas venues (kis.py lines 437-440). -/
def priceField : StockExchange → String
| StockExchange.KRX => "stck_prpr"
| _ => "last"

/-- Dictionary lookup `fields[k]` on the quote `output` object, `none` when
the key is absent (a Python `KeyError`). -/
def lookupField (fields : List (String × ℚ)) (k : String) : Option ℚ :=
  (fields.find? (fun kv => decide (kv.1 = k))).map (fun kv => kv.2)

/-- `fetch_current_price` (kis.py lines 435-444). `output` is what
`fetch_ticker` returned: `response.get("output")`, so `none` when the
response had no `output` object (then subscripting `None` raises a
`TypeError` that the `except KeyError` clause does not catch), otherwise
the field map of the quote. A missing price field raises `KeyError`, which
is caught and turned into the `None` return. -/
def fetch_current_price (exchange : StockExchange)
    (output : Option (List (String × ℚ))) : FetchPriceResult :=
  match output with
  | none => FetchPriceResult.raised "NoneType object is not subscriptable"
  | some fields =>
    match lookupField fields (priceField exchange) with
    | some v => FetchPriceResult.price v
    | none => FetchPriceResult.absent

/-- Arguments of a `create_order` call made by a helper function. -/
structure OrderCall where
  exchange : String
  ticker : String
  order_type : OrderType
  side : Side
  amount : ℕ
  price : ℤ
deriving DecidableEq

/-- `create_market_sell_order` (kis.py lines 399-409). The exchange
argument is an arbitrary runtime string (the `Literal` annotation is not
enforced): `"KRX"` submits a market SELL with the default price 0; the
literal string `"usa"` submits a market BUY passing the price through; any
other string — including the declared overseas venues NASDAQ, NYSE, AMEX —
matches neither branch and returns `None` without calling `create_order`. -/
def create_market_sell_order (exchange ticker : String) (amount : ℕ) (price : ℤ) :
    Option OrderCall :=
  if exchange = "KRX" then
    some (OrderCall.mk exchange ticker OrderType.market Side.sell amount 0)
  else if exchange = "usa" then
    some (OrderCall.mk exchange ticker OrderType.market Side.buy amount price)
  else
    none

/-- A submission-attempt outcome the retry policy classifies as transient:
a network timeout, or a raised failure whose message matches a transient
marker. -/
def TransientOutcome (o : PostOutcome) : Prop :=
  o = PostOutcome.timeout ∨ ∃ m, o = PostOutcome.failure m ∧ isTransientMsg m = true

section Helpers

lemma round2_intArg (q : ℚ) (n : ℤ) (h : q * 100 = (n : ℚ)) : round2 q = (n : ℚ) / 100 := by
  unfold round2
  rw [h, round_intCast]

lemma clamp_eq_max (x : ℚ) : (if x < 1 then 1 else x) = max 1 x := by
  rcases lt_or_le x 1 with h | h
  · simp [h, max_eq_left h.le]
  · simp [not_lt.2 h, max_eq_right h]

lemma createOrder_eq_runAttempts (exchange : StockExchange) (ticker : String)
    (order_type : OrderType) (side : Side) (amount : ℕ) (price : ℤ) (mintick : ℚ)
    (quote : Option ℚ) (post : ℕ → PostOutcome) (b : OrderBody)
    (hb : buildOrderBody exchange ticker order_type side amount price mintick quote
      = Except.ok b) :
    createOrder exchange ticker order_type side amount price mintick quote post
      = runAttempts post 0 maxRetries [] := by
  unfold createOrder
  congr 1
  funext attempt
  rw [hb]

lemma terminal_of_claim_marker (msg : String)
    (h : (["invalid", "unauthorized", "forbidden", "not found"]).any
        (fun k => containsSub (strToLower msg) k) = true) :
    isTerminalMsg msg = true := by
  simp only [isTerminalMsg, terminalMarkers, List.any_eq_true] at h ⊢
  obtain ⟨k, hk, hks⟩ := h
  refine ⟨k, ?_, hks⟩
  simp only [List.mem_cons, List.not_mem_nil, or_false] at hk ⊢
  tauto

lemma runAttempts_transient_step (outcomes : ℕ → PostOutcome) (attempt fuel : ℕ)
    (s : List ℕ) (ha : attempt < maxRetries - 1) (h : TransientOutcome (outcomes attempt)) :
    runAttempts outcomes attempt (fuel + 1) s
      = runAttempts outcomes (attempt + 1) fuel (s ++ [attemptDelay attempt]) := by
  rcases h with hx | ⟨m, hm, ht⟩
  · rw [runAttempts.eq_def]
    simp [hx, ha]
  · rw [runAttempts.eq_def]
    simp [hm, ha, ht]

lemma runAttempts_transient_last (outcomes : ℕ → PostOutcome) (s : List ℕ)
    (h : TransientOutcome (outcomes 4)) :
    ∃ e, runAttempts outcomes 4 1 s = RunResult.mk (Except.error e) 5 s := by
  rcases h with hx | ⟨m, hm, ht⟩
  · refine ⟨OrderError.timeoutExhausted, ?_⟩
    unfold runAttempts
    rw [hx]
    simp [maxRetries]
  · refine ⟨OrderError.upstream m, ?_⟩
    unfold runAttempts
    rw [hm]
    by_cases hterm : isTerminalMsg m = true
    · simp [maxRetries, ht, hterm]
    · simp [maxRetries, ht, hterm]

end Helpers

/-- C1: for every overseas market order (exchange NASDAQ, NYSE or AMEX)
with fetched quote price `p` and minimum tick `mintick`, `create_order`
submits the overseas body whose synthetic limit price is `p + 50*mintick`
for side buy and `p - 50*mintick` for side sell, clamped up to 1.0 when
the computed value is below 1.0 and rounded to 2 decimal places; in
particular quote 100.00 with mintick 0.01 yields 100.50 for buy and 99.50
for sell, and a computed value below 1.00 (quote 0.50, sell) is clamped
to 1.00. -/
theorem kis_overseas_market_synthetic_price
    (exchange : StockExchange) (hx : exchange ≠ StockExchange.KRX)
    (ticker : String) (side : Side) (amount : ℕ) (price : ℤ) (p mintick : ℚ) :
    buildOrderBody exchange ticker OrderType.market side amount price mintick (some p)
      = Except.ok (OrderBody.usa (UsaOrderBody.mk ticker UsaOrderType.limit
          (toString amount)
          (round2 (max 1 (if side = Side.buy then p + 50 * mintick else p - 50 * mintick)))
          exchange))
    ∧ syntheticPrice Side.buy 100 (1/100) = 201/2
    ∧ syntheticPrice Side.sell 100 (1/100) = 199/2
    ∧ syntheticPrice Side.sell (1/2) (1/100) = 1 := by
  refine ⟨?_, ?_, ?_, ?_⟩
  · unfold buildOrderBody syntheticPrice
    rw [if_neg hx]
    cases side with
    | buy => simp [clamp_eq_max, mul_comm]
    | sell => simp [clamp_eq_max, mul_comm]
  · have h1 : syntheticPrice Side.buy 100 (1/100) = round2 (201/2) := by
      unfold syntheticPrice
      rw [if_pos rfl]
      norm_num
    rw [h1, round2_intArg _ 10050 (by norm_num)]
    norm_num
  · have h1 : syntheticPrice Side.sell 100 (1/100) = round2 (199/2) := by
      unfold syntheticPrice
      rw [if_neg (by decide : ¬(Side.sell = Side.buy))]
      norm_num
    rw [h1, round2_intArg _ 9950 (by norm_num)]
    norm_num
  · have h1 : syntheticPrice Side.sell (1/2) (1/100) = round2 1 := by
      unfold syntheticPrice
      rw [if_neg (by decide : ¬(Side.sell = Side.buy))]
      norm_num
    rw [h1, round2_intArg _ 100 (by norm_num)]
    norm_num

/-- C1 witness: the overseas branch instantiated at NASDAQ. -/
theorem kis_overseas_market_synthetic_price_witness :
    buildOrderBody StockExchange.NASDAQ "AAPL" OrderType.market Side.buy 7 0 (1/100) (some 100)
      = Except.ok (OrderBody.usa (UsaOrderBody.mk "AAPL" UsaOrderType.limit (toString 7)
          (round2 (max 1 (if Side.buy = Side.buy then (100:ℚ) + 50 * (1/100)
            else (100:ℚ) - 50 * (1/100))))
          StockExchange.NASDAQ))
    ∧ syntheticPrice Side.buy 100 (1/100) = 201/2
    ∧ syntheticPrice Side.sell 100 (1/100) = 199/2
    ∧ syntheticPrice Side.sell (1/2) (1/100) = 1 :=
  kis_overseas_market_synthetic_price StockExchange.NASDAQ (by decide) "AAPL" Side.buy 7 0 100 (1/100)

/-- C10: for every overseas limit order the caller-supplied price argument
is discarded: the submitted body is identical for any two price arguments,
identical to the market-order body, and its `OVRS_ORD_UNPR` is the
quote-derived synthetic price. -/
theorem kis_overseas_limit_ignores_price
    (exchange : StockExchange) (hx : exchange ≠ StockExchange.KRX)
    (ticker : String) (side : Side) (amount : ℕ) (price price2 : ℤ) (p mintick : ℚ) :
    buildOrderBody exchange ticker OrderType.limit side amount price mintick (some p)
      = buildOrderBody exchange ticker OrderType.limit side amount price2 mintick (some p)
    ∧ buildOrderBody exchange ticker OrderType.limit side amount price mintick (some p)
      = buildOrderBody exchange ticker OrderType.market side amount price mintick (some p)
    ∧ buildOrderBody exchange ticker OrderType.limit side amount price mintick (some p)
      = Except.ok (OrderBody.usa (UsaOrderBody.mk ticker UsaOrderType.limit (toString amount)
          (syntheticPrice side p mintick) exchange)) := by
  refine ⟨?_, ?_, ?_⟩ <;> simp [buildOrderBody, hx]

/-- C10 witness: instantiated at NYSE with two different caller prices. -/
theorem kis_overseas_limit_ignores_price_witness :
    buildOrderBody StockExchange.NYSE "TSLA" OrderType.limit Side.sell 3 250 (1/100) (some 40)
      = buildOrderBody StockExchange.NYSE "TSLA" OrderType.limit Side.sell 3 999 (1/100) (some 40)
    ∧ buildOrderBody StockExchange.NYSE "TSLA" OrderType.limit Side.sell 3 250 (1/100) (some 40)
      = buildOrderBody StockExchange.NYSE "TSLA" OrderType.market Side.sell 3 250 (1/100) (some 40)
    ∧ buildOrderBody StockExchange.NYSE "TSLA" OrderType.limit Side.sell 3 250 (1/100) (some 40)
      = Except.ok (OrderBody.usa (UsaOrderBody.mk "TSLA" UsaOrderType.limit (toString 3)
          (syntheticPrice Side.sell 40 (1/100)) StockExchange.NYSE)) :=
  kis_overseas_limit_ignores_price StockExchange.NYSE (by decide) "TSLA" Side.sell 3 250 999 40 (1/100)

/-- C2: an upstream failure whose message contains one of the terminal
markers invalid / unauthorized / forbidden / not found and no transient
marker makes `create_order` raise that error on the first attempt: one
upstream attempt, no backoff sleep. -/
theorem kis_terminal_error_fails_first_attempt
    (exchange : StockExchange) (ticker : String) (order_type : OrderType) (side : Side)
    (amount : ℕ) (price : ℤ) (mintick : ℚ) (quote : Option ℚ) (b : OrderBody)
    (post : ℕ → PostOutcome) (msg : String)
    (hb : buildOrderBody exchange ticker order_type side amount price mintick quote
      = Except.ok b)
    (h0 : post 0 = PostOutcome.failure msg)
    (hterm : (["invalid", "unauthorized", "forbidden", "not found"]).any
        (fun k => containsSub (strToLower msg) k) = true)
    (htrans : isTransientMsg msg = false) :
    createOrder exchange ticker order_type side amount price mintick quote post
      = RunResult.mk (Except.error (OrderError.upstream msg)) 1 [] := by
  have hterm' : isTerminalMsg msg = true := terminal_of_claim_marker msg hterm
  rw [createOrder_eq_runAttempts exchange ticker order_type side amount price mintick
    quote post b hb]
  show runAttempts post 0 (4 + 1) [] = _
  unfold runAttempts
  rw [h0]
  simp [htrans, hterm']

/-- C2 witness: a KRX market order answered with an upstream message
containing "invalid". -/
theorem kis_terminal_error_fails_first_attempt_witness :
    buildOrderBody StockExchange.KRX "005930" OrderType.market Side.buy 1 0 (1/100) none
      = Except.ok (OrderBody.koreaMarket "005930" (toString 1))
    ∧ (["invalid", "unauthorized", "forbidden", "not found"]).any
        (fun k => containsSub (strToLower "Invalid order request") k) = true
    ∧ isTransientMsg "Invalid order request" = false
    ∧ createOrder StockExchange.KRX "005930" OrderType.market Side.buy 1 0 (1/100) none
        (fun _ => PostOutcome.failure "Invalid order request")
      = RunResult.mk (Except.error (OrderError.upstream "Invalid order request")) 1 [] :=
  ⟨rfl, by decide, by decide,
   kis_terminal_error_fails_first_attempt StockExchange.KRX "005930" OrderType.market
     Side.buy 1 0 (1/100) none (OrderBody.koreaMarket "005930" (toString 1))
     (fun _ => PostOutcome.failure "Invalid order request") "Invalid order request"
     rfl rfl (by decide) (by decide)⟩

/-- C3: when every attempt fails with a transient error (a network timeout
or a message matching a transient marker), `create_order` performs exactly
5 upstream attempts, sleeps 1s, 2s, 4s, 8s between consecutive attempts,
and raises an error after the fifth failure. -/
theorem kis_transient_failures_five_attempts
    (exchange : StockExchange) (ticker : String) (order_type : OrderType) (side : Side)
    (amount : ℕ) (price : ℤ) (mintick : ℚ) (quote : Option ℚ) (b : OrderBody)
    (post : ℕ → PostOutcome)
    (hb : buildOrderBody exchange ticker order_type side amount price mintick quote
      = Except.ok b)
    (htr : ∀ i, i < 5 → TransientOutcome (post i)) :
    ∃ e, createOrder exchange ticker order_type side amount price mintick quote post
      = RunResult.mk (Except.error e) 5 [1, 2, 4, 8] := by
  rw [createOrder_eq_runAttempts exchange ticker order_type side amount price mintick
    quote post b hb]
  have s0 : runAttempts post 0 maxRetries [] = runAttempts post 1 4 [1] := by
    have h := runAttempts_transient_step post 0 4 [] (by norm_num [maxRetries])
      (htr 0 (by norm_num))
    simpa [attemptDelay] using h
  have s1 : runAttempts post 1 4 [1] = runAttempts post 2 3 [1, 2] := by
    have h := runAttempts_transient_step post 1 3 [1] (by norm_num [maxRetries])
      (htr 1 (by norm_num))
    simpa [attemptDelay] using h
  have s2 : runAttempts post 2 3 [1, 2] = runAttempts post 3 2 [1, 2, 4] := by
    have h := runAttempts_transient_step post 2 2 [1, 2] (by norm_num [maxRetries])
      (htr 2 (by norm_num))
    simpa [attemptDelay] using h
  have s3 : runAttempts post 3 2 [1, 2, 4] = runAttempts post 4 1 [1, 2, 4, 8] := by
    have h := runAttempts_transient_step post 3 1 [1, 2, 4] (by norm_num [maxRetries])
      (htr 3 (by norm_num))
    simpa [attemptDelay] using h
  obtain ⟨e, he⟩ := runAttempts_transient_last post [1, 2, 4, 8] (htr 4 (by norm_num))
  exact ⟨e, by rw [s0, s1, s2, s3, he]⟩

/-- C3 witness: every attempt times out. -/
theorem kis_transient_failures_five_attempts_witness :
    buildOrderBody StockExchange.KRX "005930" OrderType.market Side.buy 1 0 (1/100) none
      = Except.ok (OrderBody.koreaMarket "005930" (toString 1))
    ∧ (∀ i, i < 5 → TransientOutcome ((fun _ => PostOutcome.timeout) i))
    ∧ ∃ e, createOrder StockExchange.KRX "005930" OrderType.market Side.buy 1 0 (1/100) none
        (fun _ => PostOutcome.timeout)
      = RunResult.mk (Except.error e) 5 [1, 2, 4, 8] :=
  ⟨rfl, fun _ _ => Or.inl rfl,
   kis_transient_failures_five_attempts StockExchange.KRX "005930" OrderType.market
     Side.buy 1 0 (1/100) none (OrderBody.koreaMarket "005930" (toString 1))
     (fun _ => PostOutcome.timeout) rfl (fun _ _ => Or.inl rfl)⟩

/-- C4: a stored credential whose parsed expiry leaves fewer than 3600
seconds remaining makes `check_auth` return false regardless of the probe
result, so `auth` takes the refresh path: the headers it installs are built
from the freshly issued token and the store now holds the fresh pair, not
the expiring one. -/
theorem kis_expiring_token_never_used
    (tok exp : String) (is_auth : Bool) (probe : ProbeOutcome)
    (parseExpiry : String → Option ℤ) (now t : ℤ) (key secret : String)
    (fresh : String × String)
    (hp : parseExpiry exp = some t) (hrem : t - now < 3600) :
    check_auth (some (tok, exp)) is_auth probe parseExpiry now = false
    ∧ (authFlow (some (tok, exp)) is_auth probe parseExpiry now key secret fresh).headers
        = mkBaseHeaders fresh.1 key secret
    ∧ (authFlow (some (tok, exp)) is_auth probe parseExpiry now key secret fresh).stored
        = some fresh := by
  have hc : check_auth (some (tok, exp)) is_auth probe parseExpiry now = false := by
    simp only [check_auth]
    split_ifs
    · rfl
    · rfl
    · rw [hp]
      simp only [decide_eq_false_iff_not, not_le]
      omega
  refine ⟨hc, ?_, ?_⟩ <;> simp [authFlow, hc]

/-- C4 witness: an expiry 100 seconds in the future with a passing probe. -/
theorem kis_expiring_token_never_used_witness :
    (fun _ : String => some (100 : ℤ)) "soon" = some 100
    ∧ ((100 : ℤ) - 0 < 3600)
    ∧ (check_auth (some ("old-token", "soon")) false ProbeOutcome.ok
        (fun _ => some (100 : ℤ)) 0 = false
      ∧ (authFlow (some ("old-token", "soon")) false ProbeOutcome.ok
          (fun _ => some (100 : ℤ)) 0 "key" "secret" ("new-token", "later")).headers
          = mkBaseHeaders ("new-token", "later").1 "key" "secret"
      ∧ (authFlow (some ("old-token", "soon")) false ProbeOutcome.ok
          (fun _ => some (100 : ℤ)) 0 "key" "secret" ("new-token", "later")).stored
          = some ("new-token", "later")) :=
  ⟨rfl, by decide,
   kis_expiring_token_never_used "old-token" "soon" false ProbeOutcome.ok
     (fun _ => some (100 : ℤ)) 0 100 "key" "secret" ("new-token", "later") rfl (by decide)⟩

/-- C5 counterexample: starting from a process with `is_auth = false` and no
stored credential, `auth` takes the refresh path (the fresh pair is
persisted) yet returns with `is_auth` still false — the claim that the
refresh path leaves the verified flag true fails at this input. -/
theorem kis_refresh_leaves_flag_false_cex :
    check_auth none false ProbeOutcome.ok (fun _ => none) 0 = false
    ∧ (authFlow none false ProbeOutcome.ok (fun _ => none) 0 "key" "secret"
        ("fresh-token", "2099-01-01 00:00:00")).stored
        = some ("fresh-token", "2099-01-01 00:00:00")
    ∧ (authFlow none false ProbeOutcome.ok (fun _ => none) 0 "key" "secret"
        ("fresh-token", "2099-01-01 00:00:00")).is_auth = false :=
  ⟨rfl, rfl, rfl⟩

/-- C5 amended: on the refresh path `auth` leaves `is_auth` unchanged (the
flag is set to true only on the path where `check_auth` succeeded on the
stored credential), while persisting the fresh pair and building headers
from it; so a later check in the same process repeats the liveness probe
even for a freshly issued token. -/
theorem kis_refresh_keeps_is_auth
    (stored : Option (String × String)) (is_auth : Bool) (probe : ProbeOutcome)
    (parseExpiry : String → Option ℤ) (now : ℤ) (key secret : String)
    (fresh : String × String)
    (h : check_auth stored is_auth probe parseExpiry now = false) :
    (authFlow stored is_auth probe parseExpiry now key secret fresh).is_auth = is_auth
    ∧ (authFlow stored is_auth probe parseExpiry now key secret fresh).stored = some fresh
    ∧ (authFlow stored is_auth probe parseExpiry now key secret fresh).headers
        = mkBaseHeaders fresh.1 key secret := by
  refine ⟨?_, ?_, ?_⟩ <;> simp [authFlow, h]

/-- C5 amended witness: the refresh path with no stored credential. -/
theorem kis_refresh_keeps_is_auth_witness :
    check_auth none false ProbeOutcome.timeout (fun _ => none) 5 = false
    ∧ ((authFlow none false ProbeOutcome.timeout (fun _ => none) 5 "k" "s"
        ("t", "e")).is_auth = false
      ∧ (authFlow none false ProbeOutcome.timeout (fun _ => none) 5 "k" "s"
          ("t", "e")).stored = some ("t", "e")
      ∧ (authFlow none false ProbeOutcome.timeout (fun _ => none) 5 "k" "s"
          ("t", "e")).headers = mkBaseHeaders ("t", "e").1 "k" "s") :=
  ⟨rfl, kis_refresh_keeps_is_auth none false ProbeOutcome.timeout (fun _ => none) 5
    "k" "s" ("t", "e") rfl⟩

lemma length_filter_partition (p : AuthRow → Bool) (l : List AuthRow) :
    (l.filter (fun r => !(p r))).length + (l.filter (fun r => p r)).length = l.length := by
  induction l with
  | nil => rfl
  | cons a t ih =>
      cases h : p a <;> simp [List.filter_cons, h] <;> omega

/-- C6: `cleanup_old_auth days` removes exactly the rows whose token is the
sentinel "nothing" and whose `updated_at` is more than `days` days old —
every other row survives, no surviving row is altered — and the returned
count is exactly the number of rows removed. -/
theorem db_cleanup_old_auth_exact (table : List AuthRow) (days now : ℤ) :
    (∀ r, r ∈ (cleanup_old_auth table days now).1 ↔
        r ∈ table ∧ ¬(r.access_token = "nothing" ∧ r.updated_at < now - days * 86400))
    ∧ (cleanup_old_auth table days now).1.length + (cleanup_old_auth table days now).2
        = table.length := by
  constructor
  · intro r
    simp only [cleanup_old_auth, List.mem_filter, staleCond, Bool.not_eq_true',
      Bool.and_eq_true, decide_eq_true_iff, Bool.and_eq_false_iff, decide_eq_false_iff_not]
    constructor
    · rintro ⟨hr, hcond⟩
      exact ⟨hr, by tauto⟩
    · rintro ⟨hr, hcond⟩
      refine ⟨hr, ?_⟩
      by_cases h1 : r.access_token = "nothing" <;> by_cases h2 : r.updated_at < now - days * 86400 <;> tauto
  · exact length_filter_partition (staleCond now days) table

section UpsertLemmas

/-- The conflict-update branch of `set_auth` viewed as a per-row function. -/
def upsertRow (ex tok exp : String) (now : ℤ) (r : AuthRow) : AuthRow :=
  if r.exchange = ex then AuthRow.mk r.exchange tok exp r.created_at now else r

lemma upsertRow_key (ex tok exp : String) (now : ℤ) (r : AuthRow) :
    (upsertRow ex tok exp now r).exchange = r.exchange := by
  unfold upsertRow
  split <;> rfl

lemma set_auth_eq_upsert (table : List AuthRow) (ex tok exp : String) (now : ℤ) :
    set_auth table ex tok exp now
      = if table.any (fun r => decide (r.exchange = ex)) then
          table.map (upsertRow ex tok exp now)
        else table ++ [AuthRow.mk ex tok exp now now] := rfl

lemma uniqueKeys_set_auth (table : List AuthRow) (h : UniqueKeys table)
    (ex tok exp : String) (now : ℤ) : UniqueKeys (set_auth table ex tok exp now) := by
  rw [set_auth_eq_upsert]
  split
  · rw [UniqueKeys, List.pairwise_map]
    exact h.imp (fun hab => by simpa [upsertRow_key] using hab)
  · rename_i hany
    rw [UniqueKeys, List.pairwise_append]
    refine ⟨h, List.pairwise_singleton _ _, ?_⟩
    intro a ha b hb
    simp only [List.mem_singleton] at hb
    subst hb
    simp only [List.any_eq_true, decide_eq_true_iff, not_exists] at hany
    intro hEq
    exact hany a ⟨ha, hEq⟩

lemma get_auth_set_auth_same (table : List AuthRow) (ex tok exp : String) (now : ℤ) :
    get_auth (set_auth table ex tok exp now) ex = some (tok, exp) := by
  rw [set_auth_eq_upsert]
  unfold get_auth
  have hcomp : ((fun r : AuthRow => decide (r.exchange = ex)) ∘ upsertRow ex tok exp now)
      = fun r : AuthRow => decide (r.exchange = ex) := by
    funext r
    simp [Function.comp, upsertRow_key]
  split
  · rename_i hany
    rw [List.find?_map, hcomp]
    have hsome : (table.find? fun r : AuthRow => decide (r.exchange = ex)).isSome := by
      rw [List.find?_isSome]
      simpa [List.any_eq_true] using hany
    obtain ⟨r2, hr2⟩ := Option.isSome_iff_exists.1 hsome
    rw [hr2]
    have hkey2 : r2.exchange = ex := by simpa using List.find?_some hr2
    simp [upsertRow, hkey2]
  · rename_i hany
    rw [List.find?_append]
    have hnone : table.find? (fun r => decide (r.exchange = ex)) = none := by
      rw [List.find?_eq_none]
      intro x hx
      simp only [List.any_eq_true] at hany
      exact fun hk => hany ⟨x, hx, hk⟩
    rw [hnone]
    simp

lemma get_auth_set_auth_other (table : List AuthRow) (ex tok exp : String) (now : ℤ)
    (ex2 : String) (hne : ex2 ≠ ex) :
    get_auth (set_auth table ex tok exp now) ex2 = get_auth table ex2 := by
  rw [set_auth_eq_upsert]
  unfold get_auth
  have hcomp : ((fun r : AuthRow => decide (r.exchange = ex2)) ∘ upsertRow ex tok exp now)
      = fun r : AuthRow => decide (r.exchange = ex2) := by
    funext r
    simp [Function.comp, upsertRow_key]
  split
  · rw [List.find?_map, hcomp]
    cases hr : table.find? (fun r => decide (r.exchange = ex2)) with
    | none => rfl
    | some r =>
        have hkey : r.exchange = ex2 := by simpa using List.find?_some hr
        have hfix : upsertRow ex tok exp now r = r := by
          unfold upsertRow
          rw [if_neg]
          rw [hkey]
          exact hne
        simp [hfix]
  · rw [List.find?_append]
    have hnone : List.find? (fun r => decide (r.exchange = ex2)) [AuthRow.mk ex tok exp now now]
        = none := by
      rw [List.find?_eq_none]
      intro x hx
      simp only [List.mem_singleton] at hx
      subst hx
      simpa using fun hk => hne (by rw [hk])
    rw [hnone]
    cases table.find? (fun r => decide (r.exchange = ex2)) <;> rfl

lemma set_auth_idem (table : List AuthRow) (ex tok exp : String) (now : ℤ) :
    set_auth (set_auth table ex tok exp now) ex tok exp now
      = set_auth table ex tok exp now := by
  have hfix : ∀ r : AuthRow, upsertRow ex tok exp now (upsertRow ex tok exp now r)
      = upsertRow ex tok exp now r := by
    intro r
    unfold upsertRow
    split <;> rfl
  rw [set_auth_eq_upsert table]
  split
  · rename_i hany
    have hany2 : (table.map (upsertRow ex tok exp now)).any
        (fun r => decide (r.exchange = ex)) = true := by
      rw [List.any_map]
      have hcomp : ((fun r : AuthRow => decide (r.exchange = ex)) ∘ upsertRow ex tok exp now)
          = fun r : AuthRow => decide (r.exchange = ex) := by
        funext r
        simp [Function.comp, upsertRow_key]
      rw [hcomp]
      exact hany
    rw [set_auth_eq_upsert, if_pos hany2, List.map_map]
    exact List.map_congr_left (fun r _ => hfix r)
  · rename_i hany
    have hany2 : ((table ++ [AuthRow.mk ex tok exp now now]).any
        (fun r => decide (r.exchange = ex))) = true := by
      rw [List.any_append]
      simp
    rw [set_auth_eq_upsert, if_pos hany2, List.map_append]
    have h1 : table.map (upsertRow ex tok exp now) = table := by
      have : ∀ r ∈ table, upsertRow ex tok exp now r = r := by
        intro r hr
        unfold upsertRow
        rw [if_neg]
        simp only [List.any_eq_true, decide_eq_true_iff] at hany
        exact fun hk => hany ⟨r, hr, hk⟩
      calc table.map (upsertRow ex tok exp now) = table.map id :=
            List.map_congr_left (fun r hr => this r hr)
        _ = table := List.map_id table
    have h2 : [AuthRow.mk ex tok exp now now].map (upsertRow ex tok exp now)
        = [AuthRow.mk ex tok exp now now] := by
      simp [upsertRow]
    rw [h1, h2]

lemma uniqueKeys_countP (table : List AuthRow) (h : UniqueKeys table) (k : String) :
    table.countP (fun r => decide (r.exchange = k)) ≤ 1 := by
  induction table with
  | nil => simp
  | cons a t ih =>
      rw [UniqueKeys, List.pairwise_cons] at h
      obtain ⟨ha, ht⟩ := h
      by_cases hak : a.exchange = k
      · have hz : t.countP (fun r => decide (r.exchange = k)) = 0 := by
          rw [List.countP_eq_zero]
          intro b hb
          simp only [decide_eq_true_iff]
          exact fun hbk => (ha b hb) (by rw [hak, hbk])
        simp [List.countP_cons, hak, hz]
      · simp only [List.countP_cons, decide_eq_true_iff, hak, if_false]
        simpa using ih ht

lemma uniqueKeys_set_auth_seq (writes : List (String × String × String × ℤ)) :
    ∀ table : List AuthRow, UniqueKeys table → UniqueKeys (set_auth_seq table writes) := by
  induction writes with
  | nil => exact fun table h => h
  | cons w ws ih =>
      intro table h
      exact ih _ (uniqueKeys_set_auth table h w.1 w.2.1 w.2.2.1 w.2.2.2)

end UpsertLemmas

/-- C8: `set_auth` is an idempotent single-statement upsert keyed by the
slot identifier: it makes `get_auth` of that slot return the new pair,
leaves every other slot's row unchanged, writing the same pair twice
changes nothing further, and any sequence of `set_auth` calls preserves
the invariant that the auth table holds at most one row per slot
identifier. -/
theorem db_set_auth_upsert
    (table : List AuthRow) (h : UniqueKeys table) (ex tok exp : String) (now : ℤ)
    (ex2 : String) (hne : ex2 ≠ ex) (writes : List (String × String × String × ℤ)) :
    get_auth (set_auth table ex tok exp now) ex = some (tok, exp)
    ∧ get_auth (set_auth table ex tok exp now) ex2 = get_auth table ex2
    ∧ set_auth (set_auth table ex tok exp now) ex tok exp now = set_auth table ex tok exp now
    ∧ UniqueKeys (set_auth table ex tok exp now)
    ∧ UniqueKeys (set_auth_seq table writes)
    ∧ ∀ k, (set_auth_seq table writes).countP (fun r => decide (r.exchange = k)) ≤ 1 :=
  ⟨get_auth_set_auth_same table ex tok exp now,
   get_auth_set_auth_other table ex tok exp now ex2 hne,
   set_auth_idem table ex tok exp now,
   uniqueKeys_set_auth table h ex tok exp now,
   uniqueKeys_set_auth_seq writes table h,
   fun k => uniqueKeys_countP _ (uniqueKeys_set_auth_seq writes table h) k⟩

/-- C8 witness: a one-row table, an overwrite of that row, and a two-write
sequence. -/
theorem db_set_auth_upsert_witness :
    UniqueKeys [AuthRow.mk "KIS1" "old" "old-exp" 0 0]
    ∧ ("KIS2" ≠ "KIS1")
    ∧ (get_auth (set_auth [AuthRow.mk "KIS1" "old" "old-exp" 0 0] "KIS1" "tok" "exp" 9) "KIS1"
        = some ("tok", "exp")
      ∧ get_auth (set_auth [AuthRow.mk "KIS1" "old" "old-exp" 0 0] "KIS1" "tok" "exp" 9) "KIS2"
        = get_auth [AuthRow.mk "KIS1" "old" "old-exp" 0 0] "KIS2"
      ∧ set_auth (set_auth [AuthRow.mk "KIS1" "old" "old-exp" 0 0] "KIS1" "tok" "exp" 9)
          "KIS1" "tok" "exp" 9
        = set_auth [AuthRow.mk "KIS1" "old" "old-exp" 0 0] "KIS1" "tok" "exp" 9
      ∧ UniqueKeys (set_auth [AuthRow.mk "KIS1" "old" "old-exp" 0 0] "KIS1" "tok" "exp" 9)
      ∧ UniqueKeys (set_auth_seq [AuthRow.mk "KIS1" "old" "old-exp" 0 0]
          [("KIS1", "t1", "e1", 1), ("KIS2", "t2", "e2", 2)])
      ∧ ∀ k, (set_auth_seq [AuthRow.mk "KIS1" "old" "old-exp" 0 0]
          [("KIS1", "t1", "e1", 1), ("KIS2", "t2", "e2", 2)]).countP
            (fun r => decide (r.exchange = k)) ≤ 1) :=
  ⟨List.pairwise_singleton _ _, by decide,
   db_set_auth_upsert [AuthRow.mk "KIS1" "old" "old-exp" 0 0]
     (List.pairwise_singleton _ _) "KIS1" "tok" "exp" 9 "KIS2" (by decide)
     [("KIS1", "t1", "e1", 1), ("KIS2", "t2", "e2", 2)]⟩

/-- C9: `create_market_sell_order` never submits a sell order for any
non-KRX exchange argument: whatever `create_order` call it makes has side
buy. Its overseas branch — which fires only for the literal string "usa" —
routes through the buy side regardless of the declared sell intent, and
the declared overseas venues such as NASDAQ match neither branch and
produce no `create_order` call at all. -/
theorem kis_market_sell_never_sell_nonKRX
    (exchange ticker : String) (amount : ℕ) (price : ℤ) (h : exchange ≠ "KRX") :
    (∀ c, create_market_sell_order exchange ticker amount price = some c
      → c.side ≠ Side.sell)
    ∧ create_market_sell_order "usa" ticker amount price
        = some (OrderCall.mk "usa" ticker OrderType.market Side.buy amount price)
    ∧ create_market_sell_order "NASDAQ" ticker amount price = none := by
  refine ⟨?_, ?_, ?_⟩
  · intro c hc
    unfold create_market_sell_order at hc
    rw [if_neg h] at hc
    by_cases hu : exchange = "usa"
    · rw [if_pos hu] at hc
      cases hc
      simp
    · rw [if_neg hu] at hc
      cases hc
  · unfold create_market_sell_order
    rw [if_neg (by decide : ¬("usa" = "KRX")), if_pos rfl]
  · unfold create_market_sell_order
    rw [if_neg (by decide : ¬("NASDAQ" = "KRX")),
      if_neg (by decide : ¬("NASDAQ" = "usa"))]

/-- C9 witness: instantiated at the overseas venue NYSE. -/
theorem kis_market_sell_never_sell_nonKRX_witness :
    ("NYSE" ≠ "KRX")
    ∧ ((∀ c, create_market_sell_order "NYSE" "TSLA" 2 10 = some c → c.side ≠ Side.sell)
      ∧ create_market_sell_order "usa" "TSLA" 2 10
          = some (OrderCall.mk "usa" "TSLA" OrderType.market Side.buy 2 10)
      ∧ create_market_sell_order "NASDAQ" "TSLA" 2 10 = none) :=
  ⟨by decide, kis_market_sell_never_sell_nonKRX "NYSE" "TSLA" 2 10 (by decide)⟩

/-- C7 counterexample: with the quote's price field missing,
`fetch_current_price` does return the absent value, but `create_order`
does not handle the absent quote as a distinguishable quote-unavailable
condition: even with an upstream that would accept every order, the
overseas market synthesis raises the `TypeError` of `None + mintick * 50`,
which matches no retry marker, is retried on every attempt without any
backoff sleep, and escapes `create_order` after the 5th attempt. -/
theorem kis_absent_quote_raises_cex :
    fetch_current_price StockExchange.NASDAQ (some [("base", 3)]) = FetchPriceResult.absent
    ∧ createOrder StockExchange.NASDAQ "AAPL" OrderType.market Side.buy 1 0 (1/100) none
        (fun _ => PostOutcome.success "accepted")
      = RunResult.mk (Except.error (OrderError.upstream typeErrorNoneMsg)) 5 [] :=
  ⟨rfl, rfl⟩

/-- C7 amended: `fetch_current_price` returns the absent value (not an
exception) when the expected price field is missing from the quote output;
`create_order`, however, does not treat the absent quote as a
distinguishable quote-unavailable condition: synthesizing an overseas
market order from an absent quote raises a `TypeError` that the generic
handler retries without backoff and finally raises after 5 attempts,
regardless of the upstream outcomes. -/
theorem kis_absent_quote_amended
    (exchange : StockExchange) (hx : exchange ≠ StockExchange.KRX)
    (fields : List (String × ℚ)) (hmiss : lookupField fields "last" = none)
    (ticker : String) (side : Side) (amount : ℕ) (price : ℤ) (mintick : ℚ)
    (post : ℕ → PostOutcome) :
    fetch_current_price exchange (some fields) = FetchPriceResult.absent
    ∧ createOrder exchange ticker OrderType.market side amount price mintick none post
      = RunResult.mk (Except.error (OrderError.upstream typeErrorNoneMsg)) 5 [] := by
  have hpf : priceField exchange = "last" := by
    cases exchange with
    | KRX => exact absurd rfl hx
    | NASDAQ => rfl
    | NYSE => rfl
    | AMEX => rfl
  constructor
  · simp [fetch_current_price, hpf, hmiss]
  · have hbuild : buildOrderBody exchange ticker OrderType.market side amount price mintick none
        = Except.error typeErrorNoneMsg := by
      unfold buildOrderBody
      rw [if_neg hx]
    unfold createOrder
    simp only [hbuild]
    rfl

/-- C7 amended witness: NYSE quote output lacking the "last" field. -/
theorem kis_absent_quote_amended_witness :
    (StockExchange.NYSE ≠ StockExchange.KRX)
    ∧ lookupField [("base", 3)] "last" = none
    ∧ (fetch_current_price StockExchange.NYSE (some [("base", 3)]) = FetchPriceResult.absent
      ∧ createOrder StockExchange.NYSE "MSFT" OrderType.market Side.sell 2 7 (1/100) none
          (fun _ => PostOutcome.success "accepted")
        = RunResult.mk (Except.error (OrderError.upstream typeErrorNoneMsg)) 5 []) :=
  ⟨by decide, rfl,
   kis_absent_quote_amended StockExchange.NYSE (by decide) [("base", 3)] rfl
     "MSFT" Side.sell 2 7 (1/100) (fun _ => PostOutcome.success "accepted")⟩

end POA
